import Mathlib

/-!
# Verification of PRECOMPUTED-AI-WEIGHTS

A shallow embedding of `src/precomputed_ai_weights.py` and the
serialization step of `src/generate_sample_database.py`, together with
theorems settling the specification claims.

Modelling conventions:
* Text is modelled as `List Char` (`PyStr`).
* Python dictionaries are modelled as insertion-ordered association
  lists; `dictInsert` has Python assignment semantics (overwrite the
  value of an existing key in place, else append) and `dictGet?` is
  first-match lookup (keys are unique in any real dict, so first match
  is the match).
* Python exceptions are modelled with `Except`: `ValueError` raised by
  `create_database` becomes `BuildError` (with the message string),
  `TypeError`/`KeyError` raised by `query_database` become `QueryError`.
* A Python value that may fail an `isinstance(_, int)` check is
  modelled by `PyParam`; a value that may fail an
  `isinstance(_, tuple)` check is modelled by `PyInput`; a tuple
  element that need not be an integer is modelled by `PyVal`, a
  non-integer element being represented by its `repr` text (for tuples,
  `str` and `repr` agree and render elements with `repr`).
* `str` of a Python non-negative integer is the standard decimal
  rendering, `natStr` below (defined with explicit fuel so that it
  reduces in the kernel); `str` of a tuple is `tupleRender` applied to
  the element renderings: `()` for the empty tuple, `(x,)` for a
  1-tuple, and `(x, y, ...)` (comma-and-space separated) otherwise.
-/

/-- Text, modelled as a list of characters. -/
abbrev PyStr := List Char

/-- Fuel-driven decimal rendering helper: with enough fuel, renders
`n` in base 10 (most significant digit first). -/
def natStrAux (fuel : Nat) (n : Nat) : PyStr :=
  match fuel with
  | 0 => []
  | fuel + 1 =>
    if n < 10 then [Nat.digitChar n]
    else natStrAux fuel (n / 10) ++ [Nat.digitChar (n % 10)]

/-- Decimal rendering of a natural number, as Python's `str` renders a
non-negative `int` (`0` renders as `"0"`). -/
def natStr (n : Nat) : PyStr := natStrAux (n + 1) n

/-- Rendering of a Python `int`, as `str`/`repr` render it: a minus
sign followed by the decimal digits for negative values, the decimal
digits otherwise. -/
def intStr (i : Int) : PyStr :=
  if i < 0 then '-' :: natStr i.natAbs else natStr i.toNat

/-- Rendering of the tail of a tuple of length at least two: each
element is preceded by a comma and a space. -/
def restRender : List PyStr → PyStr
  | [] => []
  | e :: es => ',' :: ' ' :: (e ++ restRender es)

/-- Python's `str` of a tuple, given the renderings of its elements:
`()`, `(x,)`, or `(x, y, ...)`. -/
def tupleRender (es : List PyStr) : PyStr :=
  match es with
  | [] => ['(', ')']
  | [e] => '(' :: (e ++ [',', ')'])
  | e :: e' :: es' => '(' :: (e ++ (restRender (e' :: es') ++ [')']))

/-- Python's `str` of a tuple of non-negative integers. -/
def natTupleStr (t : List Nat) : PyStr := tupleRender (t.map natStr)

/-- An element of a tuple passed to `query_database`: either a Python
`int`, or any non-integer value represented by its `repr` text. -/
inductive PyVal where
  | int (i : Int)
  | nonInt (rendering : PyStr)
deriving DecidableEq

/-- `repr` of a tuple element (`str` of a tuple renders its elements
with `repr`). -/
def pyValStr : PyVal → PyStr
  | .int i => intStr i
  | .nonInt r => r

/-- Python's `str` (equal to `repr`) of a tuple of arbitrary values. -/
def pyTupleStr (elems : List PyVal) : PyStr := tupleRender (elems.map pyValStr)

/-- `s.replace(" ", "")`: remove every space character. -/
def noSpaces (s : PyStr) : PyStr := s.filter (fun c => c ≠ ' ')

/-- An argument position of `create_database` that Python checks with
`isinstance(_, int)`: either an `int`, or some non-integer value. -/
inductive PyParam where
  | int (i : Int)
  | nonInt
deriving DecidableEq

/-- The `ValueError`s raised by `create_database`, tagged by their
message: argument-validation failures versus unsupported operations. -/
inductive BuildError where
  | invalidArgument (msg : String)
  | unsupportedOperation (msg : String)
deriving DecidableEq

/-- The errors raised by `query_database`: `TypeError` for a non-tuple
argument, `KeyError` carrying `str(input_values)` and both attempted
key forms. -/
inductive QueryError where
  | typeMismatch (msg : String)
  | notFound (inputRendering primaryKey secondaryKey : PyStr)
deriving DecidableEq

/-- `result = 1; for val in inputs: result *= val` — the multiply
operation of `create_database`. -/
def pyProd (inputs : List Nat) : Nat := inputs.foldl (· * ·) 1

/-- Does the dictionary have this key? -/
def hasKey {κ α : Type} [DecidableEq κ] (d : List (κ × α)) (k : κ) : Bool :=
  d.any (fun p => p.1 = k)

/-- Python dictionary assignment `d[k] = v`: overwrite in place when
the key is present, append otherwise. -/
def dictInsert {κ α : Type} [DecidableEq κ] (d : List (κ × α)) (k : κ) (v : α) :
    List (κ × α) :=
  if hasKey d k then d.map (fun p => if p.1 = k then (p.1, v) else p)
  else d ++ [(k, v)]

/-- First-match lookup `d[k]` in an association-list dictionary. -/
def dictGet? {κ α : Type} [DecidableEq κ] (d : List (κ × α)) (k : κ) : Option α :=
  match d with
  | [] => none
  | (k', v) :: rest => if k' = k then some v else dictGet? rest k

/-- All length-`n` tuples whose head is drawn from `vs` and whose tail
is drawn from `ts`, in the order `itertools.product` generates them
(first coordinate varies slowest). -/
def prependAll (vs : List Nat) (ts : List (List Nat)) : List (List Nat) :=
  match vs with
  | [] => []
  | v :: vs' => ts.map (fun t => v :: t) ++ prependAll vs' ts

/-- `itertools.product(range V, repeat = n)`: every ordered tuple of
length `n` with elements in `{0, ..., V-1}`, lexicographically. -/
def productRepeat (V : Nat) : Nat → List (List Nat)
  | 0 => [[]]
  | n + 1 => prependAll (List.range V) (productRepeat V n)

/-- The `for inputs in input_combinations:` loop of `create_database`:
on operation `"multiply"` insert the product of each tuple, on any
other operation raise `ValueError` at the first tuple, before any
entry of that iteration is produced. -/
def buildLoop (operation : String) :
    List (List Nat) → List (List Nat × Nat) → Except BuildError (List (List Nat × Nat))
  | [], database => .ok database
  | inputs :: rest, database =>
    if operation = "multiply" then
      buildLoop operation rest (dictInsert database inputs (pyProd inputs))
    else
      .error (.unsupportedOperation ("Unsupported operation: " ++ operation))

/-- `create_database(num_inputs, input_bit_depth, operation)` of
`precomputed_ai_weights.py`: validate `num_inputs`, then
`input_bit_depth`, then enumerate `itertools.product(range(2 **
input_bit_depth), repeat=num_inputs)` and fill the dictionary. -/
def create_database (num_inputs input_bit_depth : PyParam) (operation : String) :
    Except BuildError (List (List Nat × Nat)) :=
  match num_inputs, input_bit_depth with
  | .nonInt, _ =>
    .error (.invalidArgument "num_inputs must be a positive integer.")
  | .int n, .nonInt =>
    if n ≤ 0 then .error (.invalidArgument "num_inputs must be a positive integer.")
    else .error (.invalidArgument "input_bit_depth must be a positive integer.")
  | .int n, .int b =>
    if n ≤ 0 then .error (.invalidArgument "num_inputs must be a positive integer.")
    else if b ≤ 0 then
      .error (.invalidArgument "input_bit_depth must be a positive integer.")
    else
      buildLoop operation (productRepeat (2 ^ b.toNat) n.toNat) []

/-- The argument of `query_database`, which Python checks with
`isinstance(_, tuple)`: a tuple of values, or some non-tuple value. -/
inductive PyInput where
  | tuple (elems : List PyVal)
  | nonTuple
deriving DecidableEq

/-- `query_database(database, input_values)` of
`precomputed_ai_weights.py`: `TypeError` on a non-tuple argument,
then first-stage lookup under `str(input_values)`, then second-stage
lookup under `repr(input_values).replace(" ", "")` (for tuples `str`
and `repr` agree), then `KeyError` naming the input and both keys. -/
def query_database {α : Type} (database : List (PyStr × α)) (input_values : PyInput) :
    Except QueryError α :=
  match input_values with
  | .nonTuple => .error (.typeMismatch "input_values must be a tuple.")
  | .tuple elems =>
    match dictGet? database (pyTupleStr elems) with
    | some v => .ok v
    | none =>
      match dictGet? database (noSpaces (pyTupleStr elems)) with
      | some v => .ok v
      | none =>
        .error (.notFound (pyTupleStr elems) (pyTupleStr elems)
          (noSpaces (pyTupleStr elems)))

/-- `simulate_neuron(database, input_values)`: a direct wrapper around
`query_database`. -/
def simulate_neuron {α : Type} (database : List (PyStr × α)) (input_values : PyInput) :
    Except QueryError α :=
  query_database database input_values

/-- The serialization step of `generate_sample_database.py`, line 57:
`{str(key): value for key, value in database_tuple_keys.items()}` —
a dict comprehension, i.e. repeated dictionary assignment in iteration
order. -/
def serialize (db : List (List Nat × Nat)) : List (PyStr × Nat) :=
  db.foldl (fun acc p => dictInsert acc (natTupleStr p.1) p.2) []

/-- The `not isinstance(_, int) or _ <= 0` validation of
`create_database`, as a predicate: is this parameter a positive
integer? -/
def isPosInt : PyParam → Bool
  | .int i => 0 < i
  | .nonInt => false

/-- Did the query fail with the `TypeError` (TypeMismatch) outcome? -/
def isTypeMismatchB {α : Type} : Except QueryError α → Bool
  | .error (.typeMismatch _) => true
  | _ => false

/-! ## Decimal rendering: basic facts -/

theorem natStrAux_irrel : ∀ f₁ f₂ n : Nat, n < f₁ → n < f₂ →
    natStrAux f₁ n = natStrAux f₂ n := by
  intro f₁
  induction f₁ with
  | zero => intro f₂ n h1 _; exact absurd h1 (Nat.not_lt_zero n)
  | succ g ih =>
    intro f₂ n h1 h2
    match f₂, h2 with
    | f + 1, _ =>
      simp only [natStrAux]
      by_cases h10 : n < 10
      · simp [h10]
      · simp only [if_neg h10]
        rw [ih f (n / 10) (by omega) (by omega)]

theorem natStr_eq (n : Nat) :
    natStr n = if n < 10 then [Nat.digitChar n]
               else natStr (n / 10) ++ [Nat.digitChar (n % 10)] := by
  by_cases h : n < 10
  · simp only [natStr, natStrAux, if_pos h]
  · rw [if_neg h]
    show natStrAux (n + 1) n = _
    rw [show natStrAux (n + 1) n
        = if n < 10 then [Nat.digitChar n]
          else natStrAux n (n / 10) ++ [Nat.digitChar (n % 10)] from rfl]
    rw [if_neg h, natStrAux_irrel n (n / 10 + 1) (n / 10) (by omega) (by omega)]
    rfl

/-- The numeric value of a digit character. -/
def digitVal (c : Char) : Nat := c.toNat - 48

/-- The number denoted by a big-endian string of decimal digits. -/
def digitsToNat (s : PyStr) : Nat := s.foldl (fun a c => a * 10 + digitVal c) 0

theorem digitVal_digitChar : ∀ d < 10, digitVal (Nat.digitChar d) = d := by decide

theorem digitChar_isDigit : ∀ d < 10, (Nat.digitChar d).isDigit = true := by decide

theorem digitsToNat_natStr (n : Nat) : digitsToNat (natStr n) = n := by
  induction n using Nat.strong_induction_on with
  | _ n ih =>
    rw [natStr_eq]
    by_cases h : n < 10
    · simp only [if_pos h, digitsToNat, List.foldl]
      rw [digitVal_digitChar n h]
      omega
    · simp only [if_neg h, digitsToNat, List.foldl_append, List.foldl]
      have h1 : n / 10 < n := Nat.div_lt_self (by omega) (by omega)
      have h2 := ih (n / 10) h1
      simp only [digitsToNat] at h2
      rw [h2, digitVal_digitChar (n % 10) (by omega)]
      omega

theorem natStr_injective : Function.Injective natStr := by
  intro a b h
  have h2 := congrArg digitsToNat h
  simpa only [digitsToNat_natStr] using h2

theorem natStr_ne_nil (n : Nat) : natStr n ≠ [] := by
  rw [natStr_eq]
  by_cases h : n < 10 <;> simp [h]

theorem natStr_isDigit (n : Nat) : ∀ c ∈ natStr n, c.isDigit = true := by
  induction n using Nat.strong_induction_on with
  | _ n ih =>
    rw [natStr_eq]
    by_cases h : n < 10
    · simp only [if_pos h, List.mem_singleton]
      intro c hc; subst hc; exact digitChar_isDigit n h
    · simp only [if_neg h]
      intro c hc
      rcases List.mem_append.mp hc with h1 | h2
      · exact ih (n / 10) (Nat.div_lt_self (by omega) (by omega)) c h1
      · rw [List.mem_singleton] at h2; subst h2
        exact digitChar_isDigit _ (by omega)

/-! ## Tokenization: a digit token is determined by its rendering -/

/-- Longest all-digit prefix. -/
def takeDigits : PyStr → PyStr
  | [] => []
  | c :: cs => if c.isDigit then c :: takeDigits cs else []

/-- Remainder after the longest all-digit prefix. -/
def dropDigits : PyStr → PyStr
  | [] => []
  | c :: cs => if c.isDigit then dropDigits cs else c :: cs

/-- The string is empty or starts with a non-digit. -/
def headNotDigit : PyStr → Prop
  | [] => True
  | c :: _ => c.isDigit = false

theorem takeDigits_append (A r : PyStr) (hA : ∀ c ∈ A, c.isDigit = true)
    (hr : headNotDigit r) : takeDigits (A ++ r) = A := by
  induction A with
  | nil =>
    simp only [List.nil_append]
    cases r with
    | nil => rfl
    | cons c cs =>
      simp only [headNotDigit] at hr
      simp [takeDigits, hr]
  | cons a A ih =>
    have ha : a.isDigit = true := hA a (by simp)
    simp only [List.cons_append, takeDigits, ha, if_true]
    exact congrArg (fun l => a :: l) (ih (fun c hc => hA c (by simp [hc])))

theorem dropDigits_append (A r : PyStr) (hA : ∀ c ∈ A, c.isDigit = true)
    (hr : headNotDigit r) : dropDigits (A ++ r) = r := by
  induction A with
  | nil =>
    simp only [List.nil_append]
    cases r with
    | nil => rfl
    | cons c cs =>
      simp only [headNotDigit] at hr
      simp [dropDigits, hr]
  | cons a A ih =>
    have ha : a.isDigit = true := hA a (by simp)
    simp only [List.cons_append, dropDigits, ha, if_true]
    exact ih (fun c hc => hA c (by simp [hc]))

theorem token_cancel (e₁ e₂ r₁ r₂ : PyStr)
    (h1 : ∀ c ∈ e₁, c.isDigit = true) (h2 : ∀ c ∈ e₂, c.isDigit = true)
    (hr1 : headNotDigit r₁) (hr2 : headNotDigit r₂)
    (heq : e₁ ++ r₁ = e₂ ++ r₂) : e₁ = e₂ ∧ r₁ = r₂ := by
  have t := congrArg takeDigits heq
  rw [takeDigits_append e₁ r₁ h1 hr1, takeDigits_append e₂ r₂ h2 hr2] at t
  have d := congrArg dropDigits heq
  rw [dropDigits_append e₁ r₁ h1 hr1, dropDigits_append e₂ r₂ h2 hr2] at d
  exact ⟨t, d⟩

/-! ## Injectivity of the tuple rendering -/

theorem headNotDigit_restRender (es : List PyStr) :
    headNotDigit (restRender es ++ [')']) := by
  cases es with
  | nil => exact (by decide : (')').isDigit = false)
  | cons e es' => exact (by decide : (',').isDigit = false)

theorem digit_token_ne_rparen (e r : PyStr) (hne : e ≠ [])
    (hd : ∀ c ∈ e, c.isDigit = true) : [')'] ≠ e ++ r := by
  cases e with
  | nil => exact absurd rfl hne
  | cons c cs =>
    intro h
    injection h with h1 _
    have hc := hd c (by simp)
    rw [← h1] at hc
    exact absurd hc (by decide)

theorem restRender_inj : ∀ es₁ es₂ : List PyStr,
    (∀ e ∈ es₁, ∀ c ∈ e, c.isDigit = true) →
    (∀ e ∈ es₂, ∀ c ∈ e, c.isDigit = true) →
    restRender es₁ ++ [')'] = restRender es₂ ++ [')'] → es₁ = es₂ := by
  intro es₁
  induction es₁ with
  | nil =>
    intro es₂ _ _ h
    cases es₂ with
    | nil => rfl
    | cons e es =>
      simp only [restRender, List.nil_append, List.cons_append] at h
      injection h with h1 _
      exact absurd h1 (by decide)
  | cons e₁ es₁' ih =>
    intro es₂ hg1 hg2 h
    cases es₂ with
    | nil =>
      simp only [restRender, List.nil_append, List.cons_append] at h
      injection h with h1 _
      exact absurd h1 (by decide)
    | cons e₂ es₂' =>
      simp only [restRender, List.cons_append, List.append_assoc] at h
      injection h with _ h
      injection h with _ h
      have hc := token_cancel e₁ e₂ (restRender es₁' ++ [')']) (restRender es₂' ++ [')'])
        (hg1 e₁ (by simp)) (hg2 e₂ (by simp))
        (headNotDigit_restRender es₁') (headNotDigit_restRender es₂') h
      rw [hc.1, ih es₂' (fun e he => hg1 e (by simp [he])) (fun e he => hg2 e (by simp [he])) hc.2]

/-- A list of renderings all of which are nonempty all-digit strings. -/
def goodTokens (es : List PyStr) : Prop :=
  ∀ e ∈ es, e ≠ [] ∧ ∀ c ∈ e, c.isDigit = true

theorem tupleRender_inj : ∀ es₁ es₂ : List PyStr, goodTokens es₁ → goodTokens es₂ →
    tupleRender es₁ = tupleRender es₂ → es₁ = es₂ := by
  intro es₁ es₂ hg1 hg2 h
  match es₁, es₂ with
  | [], [] => rfl
  | [], [e₂] =>
    simp only [tupleRender] at h
    injection h with _ h
    exact absurd h (digit_token_ne_rparen e₂ [',', ')'] (hg2 e₂ (by simp)).1
      (hg2 e₂ (by simp)).2)
  | [], e₂ :: e₂' :: es₂' =>
    simp only [tupleRender] at h
    injection h with _ h
    exact absurd h (digit_token_ne_rparen e₂ (restRender (e₂' :: es₂') ++ [')'])
      (hg2 e₂ (by simp)).1 (hg2 e₂ (by simp)).2)
  | [e₁], [] =>
    simp only [tupleRender] at h
    injection h with _ h
    exact absurd h.symm (digit_token_ne_rparen e₁ [',', ')'] (hg1 e₁ (by simp)).1
      (hg1 e₁ (by simp)).2)
  | e₁ :: e₁' :: es₁', [] =>
    simp only [tupleRender] at h
    injection h with _ h
    exact absurd h.symm (digit_token_ne_rparen e₁ (restRender (e₁' :: es₁') ++ [')'])
      (hg1 e₁ (by simp)).1 (hg1 e₁ (by simp)).2)
  | [e₁], [e₂] =>
    simp only [tupleRender] at h
    injection h with _ h
    have hc := token_cancel e₁ e₂ [',', ')'] [',', ')']
      (hg1 e₁ (by simp)).2 (hg2 e₂ (by simp)).2
      (by decide : (',').isDigit = false) (by decide : (',').isDigit = false) h
    rw [hc.1]
  | [e₁], e₂ :: e₂' :: es₂' =>
    simp only [tupleRender] at h
    injection h with _ h
    have hc := token_cancel e₁ e₂ [',', ')'] (restRender (e₂' :: es₂') ++ [')'])
      (hg1 e₁ (by simp)).2 (hg2 e₂ (by simp)).2
      (by decide : (',').isDigit = false) (headNotDigit_restRender _) h
    have h2 := hc.2
    simp only [restRender, List.cons_append] at h2
    injection h2 with _ h2
    injection h2 with h2 _
    exact absurd h2 (by decide)
  | e₁ :: e₁' :: es₁', [e₂] =>
    simp only [tupleRender] at h
    injection h with _ h
    have hc := token_cancel e₁ e₂ (restRender (e₁' :: es₁') ++ [')']) [',', ')']
      (hg1 e₁ (by simp)).2 (hg2 e₂ (by simp)).2
      (headNotDigit_restRender _) (by decide : (',').isDigit = false) h
    have h2 := hc.2
    simp only [restRender, List.cons_append] at h2
    injection h2 with _ h2
    injection h2 with h2 _
    exact absurd h2.symm (by decide)
  | e₁ :: e₁' :: es₁', e₂ :: e₂' :: es₂' =>
    simp only [tupleRender] at h
    injection h with _ h
    have hc := token_cancel e₁ e₂ (restRender (e₁' :: es₁') ++ [')'])
      (restRender (e₂' :: es₂') ++ [')'])
      (hg1 e₁ (by simp)).2 (hg2 e₂ (by simp)).2
      (headNotDigit_restRender _) (headNotDigit_restRender _) h
    have htail := restRender_inj (e₁' :: es₁') (e₂' :: es₂')
      (fun e he => (hg1 e (by simp [he])).2) (fun e he => (hg2 e (by simp [he])).2) hc.2
    rw [hc.1, htail]

theorem natTupleStr_injective : Function.Injective natTupleStr := by
  intro s t h
  have hm := tupleRender_inj (s.map natStr) (t.map natStr)
    (by
      intro e he
      obtain ⟨n, _, rfl⟩ := List.mem_map.mp he
      exact ⟨natStr_ne_nil n, natStr_isDigit n⟩)
    (by
      intro e he
      obtain ⟨n, _, rfl⟩ := List.mem_map.mp he
      exact ⟨natStr_ne_nil n, natStr_isDigit n⟩)
    h
  exact List.map_injective_iff.mpr natStr_injective hm

/-- Rendering a tuple of non-negative integers through `pyTupleStr`
(the query side) agrees with `natTupleStr` (the serialization side). -/
theorem pyValStr_int_natCast (x : Nat) : pyValStr (.int (Int.ofNat x)) = natStr x := by
  simp only [pyValStr, intStr]
  rw [if_neg (Int.not_lt.mpr (Int.ofNat_nonneg x) : ¬ Int.ofNat x < 0)]
  rfl

theorem pyTupleStr_natCast (t : List Nat) :
    pyTupleStr (t.map (fun x => PyVal.int (Int.ofNat x))) = natTupleStr t := by
  unfold pyTupleStr natTupleStr
  congr 1
  induction t with
  | nil => rfl
  | cons a t ih =>
    simp only [List.map_cons]
    rw [pyValStr_int_natCast, ih]

/-! ## The enumeration of input combinations -/

theorem mem_prependAll (vs : List Nat) (ts : List (List Nat)) (t : List Nat) :
    t ∈ prependAll vs ts ↔ ∃ v ∈ vs, ∃ t' ∈ ts, t = v :: t' := by
  induction vs with
  | nil => simp [prependAll]
  | cons v vs ih =>
    simp only [prependAll, List.mem_append, List.mem_map, ih, List.mem_cons]
    constructor
    · rintro (⟨t', ht', rfl⟩ | ⟨w, hw, t', ht', rfl⟩)
      · exact ⟨v, Or.inl rfl, t', ht', rfl⟩
      · exact ⟨w, Or.inr hw, t', ht', rfl⟩
    · rintro ⟨w, hw | hw, t', ht', rfl⟩
      · exact Or.inl ⟨t', ht', by rw [hw]⟩
      · exact Or.inr ⟨w, hw, t', ht', rfl⟩

theorem mem_productRepeat (V : Nat) : ∀ (n : Nat) (t : List Nat),
    t ∈ productRepeat V n ↔ t.length = n ∧ ∀ x ∈ t, x < V := by
  intro n
  induction n with
  | zero =>
    intro t
    simp only [productRepeat, List.mem_singleton]
    constructor
    · rintro rfl; simp
    · rintro ⟨hlen, _⟩; exact List.eq_nil_of_length_eq_zero hlen
  | succ n ih =>
    intro t
    rw [productRepeat, mem_prependAll]
    constructor
    · rintro ⟨v, hv, t', ht', rfl⟩
      obtain ⟨hlen, hb⟩ := (ih t').mp ht'
      refine ⟨by simp [hlen], ?_⟩
      intro x hx
      rcases List.mem_cons.mp hx with rfl | hx
      · exact List.mem_range.mp hv
      · exact hb x hx
    · rintro ⟨hlen, hbound⟩
      cases t with
      | nil => simp at hlen
      | cons a t' =>
        refine ⟨a, List.mem_range.mpr (hbound a (by simp)), t', ?_, rfl⟩
        exact (ih t').mpr ⟨by simpa using hlen, fun x hx => hbound x (by simp [hx])⟩

theorem length_prependAll (vs : List Nat) (ts : List (List Nat)) :
    (prependAll vs ts).length = vs.length * ts.length := by
  induction vs with
  | nil => simp [prependAll]
  | cons v vs ih =>
    simp only [prependAll, List.length_append, List.length_map, ih, List.length_cons]
    ring

theorem length_productRepeat (V : Nat) : ∀ n, (productRepeat V n).length = V ^ n := by
  intro n
  induction n with
  | zero => rfl
  | succ n ih =>
    rw [productRepeat, length_prependAll, List.length_range, ih, pow_succ]
    ring

theorem nodup_prependAll (vs : List Nat) (ts : List (List Nat))
    (hvs : vs.Nodup) (hts : ts.Nodup) : (prependAll vs ts).Nodup := by
  induction vs with
  | nil => exact List.nodup_nil
  | cons v vs ih =>
    rw [List.nodup_cons] at hvs
    apply List.Nodup.append
    · exact hts.map (fun a b h => by injection h)
    · exact ih hvs.2
    · intro t ht1 ht2
      obtain ⟨t', _, rfl⟩ := List.mem_map.mp ht1
      obtain ⟨w, hw, t'', _, heq⟩ := (mem_prependAll vs ts _).mp ht2
      injection heq with h1 _
      exact hvs.1 (h1 ▸ hw)

theorem nodup_productRepeat (V n : Nat) : (productRepeat V n).Nodup := by
  induction n with
  | zero => simp [productRepeat]
  | succ n ih => exact nodup_prependAll _ _ (List.nodup_range V) ih

/-! ## Dictionary lemmas -/

theorem hasKey_iff {κ α : Type} [DecidableEq κ] (d : List (κ × α)) (k : κ) :
    hasKey d k = true ↔ k ∈ d.map Prod.fst := by
  simp only [hasKey, List.any_eq_true, List.mem_map, decide_eq_true_eq]

theorem dictInsert_fresh {κ α : Type} [DecidableEq κ] (d : List (κ × α)) (k : κ) (v : α)
    (h : k ∉ d.map Prod.fst) : dictInsert d k v = d ++ [(k, v)] := by
  rw [dictInsert, if_neg (fun hh => h ((hasKey_iff d k).mp hh))]

theorem foldl_dictInsert_fresh {κ α β : Type} [DecidableEq κ] (f : β → κ) (g : β → α) :
    ∀ (l : List β) (acc : List (κ × α)),
    (∀ x ∈ l, f x ∉ acc.map Prod.fst) → (l.map f).Nodup →
    l.foldl (fun d x => dictInsert d (f x) (g x)) acc
      = acc ++ l.map (fun x => (f x, g x)) := by
  intro l
  induction l with
  | nil => intro acc _ _; simp
  | cons x l ih =>
    intro acc hfresh hnd
    simp only [List.foldl_cons, List.map_cons]
    rw [dictInsert_fresh acc (f x) (g x) (hfresh x (by simp))]
    rw [List.map_cons, List.nodup_cons] at hnd
    rw [ih (acc ++ [(f x, g x)]) ?_ hnd.2]
    · simp
    · intro y hy
      simp only [List.map_append, List.mem_append, List.map_cons, List.map_nil,
        List.mem_singleton]
      rintro (h1 | h2)
      · exact hfresh y (by simp [hy]) h1
      · exact hnd.1 (h2 ▸ List.mem_map_of_mem f hy)

theorem dictGet?_map {κ α β : Type} [DecidableEq κ] (f : β → κ) (g : β → α) :
    ∀ l : List β, (l.map f).Nodup → ∀ x ∈ l,
    dictGet? (l.map fun y => (f y, g y)) (f x) = some (g x) := by
  intro l
  induction l with
  | nil => intro _ x hx; cases hx
  | cons y l ih =>
    intro hnd x hx
    simp only [List.map_cons, dictGet?]
    rw [List.map_cons, List.nodup_cons] at hnd
    by_cases heq : f y = f x
    · rw [if_pos heq]
      rcases List.mem_cons.mp hx with rfl | hx'
      · rfl
      · exact absurd (heq ▸ List.mem_map_of_mem f hx') hnd.1
    · rw [if_neg heq]
      rcases List.mem_cons.mp hx with rfl | hx'
      · exact absurd rfl heq
      · exact ih hnd.2 x hx'

/-! ## Normal form of a successful build -/

theorem buildLoop_multiply : ∀ (ts : List (List Nat)) (db : List (List Nat × Nat)),
    buildLoop "multiply" ts db
      = .ok (ts.foldl (fun d t => dictInsert d t (pyProd t)) db) := by
  intro ts
  induction ts with
  | nil => intro db; rfl
  | cons t ts ih =>
    intro db
    simp only [buildLoop, if_pos rfl, List.foldl_cons]
    exact ih _

theorem create_database_multiply (n b : Int) (hn : 0 < n) (hb : 0 < b) :
    create_database (.int n) (.int b) "multiply"
      = .ok ((productRepeat (2 ^ b.toNat) n.toNat).map (fun t => (t, pyProd t))) := by
  rw [create_database]
  rw [if_neg (by omega), if_neg (by omega)]
  rw [buildLoop_multiply]
  congr 1
  have h := foldl_dictInsert_fresh (fun t => t) pyProd
    (productRepeat (2 ^ b.toNat) n.toNat) [] (by simp)
    (by simpa using nodup_productRepeat (2 ^ b.toNat) n.toNat)
  simpa using h

theorem foldl_mul_eq (l : List Nat) : ∀ a, l.foldl (· * ·) a = a * l.prod := by
  induction l with
  | nil => intro a; simp
  | cons x l ih =>
    intro a
    simp only [List.foldl_cons, List.prod_cons]
    rw [ih]
    ring

theorem pyProd_eq_prod (l : List Nat) : pyProd l = l.prod := by
  rw [pyProd, foldl_mul_eq]
  ring

theorem serialize_eq (db : List (List Nat × Nat))
    (hnd : (db.map (fun p => natTupleStr p.1)).Nodup) :
    serialize db = db.map (fun p => (natTupleStr p.1, p.2)) := by
  unfold serialize
  have h := foldl_dictInsert_fresh (fun p : List Nat × Nat => natTupleStr p.1)
    Prod.snd db [] (by simp) hnd
  simpa using h

theorem map_fst_build (V m : Nat) :
    ((productRepeat V m).map (fun t => (t, pyProd t))).map Prod.fst
      = productRepeat V m := by
  rw [List.map_map]
  have he : (Prod.fst ∘ fun t : List Nat => (t, pyProd t)) = id := rfl
  rw [he, List.map_id]

theorem build_keys_nodup (V m : Nat) :
    (((productRepeat V m).map (fun t => (t, pyProd t))).map
      (fun p => natTupleStr p.1)).Nodup := by
  rw [List.map_map]
  have he : ((fun p : List Nat × Nat => natTupleStr p.1) ∘ fun t => (t, pyProd t))
      = natTupleStr := rfl
  rw [he]
  exact (nodup_productRepeat V m).map natTupleStr_injective

/-! ## Claims -/

/-- Claim C2: for every positive integer `num_inputs` and positive
integer `input_bit_depth`, `create_database(num_inputs,
input_bit_depth, "multiply")` returns a mapping whose key set is
exactly the ordered tuples of length `num_inputs` with elements in
`{0, ..., 2 ^ input_bit_depth - 1}`: exactly
`(2 ^ input_bit_depth) ^ num_inputs` entries, no duplicate keys, every
tuple of the input space present, and no other key present. -/
theorem claim_C2_key_space (n b : Int) (hn : 0 < n) (hb : 0 < b) :
    ∃ db, create_database (.int n) (.int b) "multiply" = .ok db ∧
      db.length = (2 ^ b.toNat) ^ n.toNat ∧
      (db.map Prod.fst).Nodup ∧
      ∀ t : List Nat, t ∈ db.map Prod.fst ↔
        (t.length = n.toNat ∧ ∀ x ∈ t, x < 2 ^ b.toNat) := by
  refine ⟨_, create_database_multiply n b hn hb, ?_, ?_, ?_⟩
  · rw [List.length_map, length_productRepeat]
  · rw [map_fst_build]
    exact nodup_productRepeat _ _
  · intro t
    rw [map_fst_build]
    exact mem_productRepeat _ _ t

/-- Claim C2 witness: instantiation at `num_inputs = 1`,
`input_bit_depth = 1`. -/
theorem claim_C2_witness :
    ∃ db, create_database (.int 1) (.int 1) "multiply" = .ok db ∧
      db.length = (2 ^ (1 : Int).toNat) ^ (1 : Int).toNat ∧
      (db.map Prod.fst).Nodup ∧
      ∀ t : List Nat, t ∈ db.map Prod.fst ↔
        (t.length = (1 : Int).toNat ∧ ∀ x ∈ t, x < 2 ^ (1 : Int).toNat) :=
  claim_C2_key_space 1 1 (by decide) (by decide)

/-- Claim C3: for every valid `(num_inputs, input_bit_depth)`, the
value that `create_database(num_inputs, input_bit_depth, "multiply")`
associates with each tuple of the input space is the arithmetic
product of the tuple's elements, in particular `0` whenever any
element is `0`. -/
theorem claim_C3_multiply_values (n b : Int) (hn : 0 < n) (hb : 0 < b) :
    ∃ db, create_database (.int n) (.int b) "multiply" = .ok db ∧
      (∀ t v, (t, v) ∈ db → v = t.prod ∧ (0 ∈ t → v = 0)) ∧
      (∀ t : List Nat, t.length = n.toNat → (∀ x ∈ t, x < 2 ^ b.toNat) →
        (t, t.prod) ∈ db) := by
  refine ⟨_, create_database_multiply n b hn hb, ?_, ?_⟩
  · intro t v hmem
    obtain ⟨t', ht', heq⟩ := List.mem_map.mp hmem
    rw [Prod.ext_iff] at heq
    obtain ⟨h1, h2⟩ := heq
    simp only at h1 h2
    subst h1
    rw [← h2, pyProd_eq_prod]
    exact ⟨rfl, fun h0 => List.prod_eq_zero h0⟩
  · intro t hlen hbound
    have hmem : t ∈ productRepeat (2 ^ b.toNat) n.toNat :=
      (mem_productRepeat _ _ t).mpr ⟨hlen, hbound⟩
    exact List.mem_map.mpr ⟨t, hmem, by simp [pyProd_eq_prod]⟩

/-- Claim C3 witness: instantiation at `num_inputs = 1`,
`input_bit_depth = 1`. -/
theorem claim_C3_witness :
    ∃ db, create_database (.int 1) (.int 1) "multiply" = .ok db ∧
      (∀ t v, (t, v) ∈ db → v = t.prod ∧ (0 ∈ t → v = 0)) ∧
      (∀ t : List Nat, t.length = (1 : Int).toNat →
        (∀ x ∈ t, x < 2 ^ (1 : Int).toNat) → (t, t.prod) ∈ db) :=
  claim_C3_multiply_values 1 1 (by decide) (by decide)

/-- Claim C6: for every positive integer `num_inputs` and positive
integer `input_bit_depth`, `create_database` called with any operation
other than `"multiply"` (e.g. `"add"`) fails with the
UnsupportedOperation `ValueError` — the error is raised at the first
enumerated tuple, so no table (not even a partial one) is returned. -/
theorem claim_C6_unsupported_operation (n b : Int) (hn : 0 < n) (hb : 0 < b)
    (op : String) (hop : op ≠ "multiply") :
    create_database (.int n) (.int b) op
      = .error (.unsupportedOperation ("Unsupported operation: " ++ op)) := by
  rw [create_database, if_neg (by omega), if_neg (by omega)]
  have hpos : 0 < (productRepeat (2 ^ b.toNat) n.toNat).length := by
    rw [length_productRepeat]
    positivity
  cases hcombo : productRepeat (2 ^ b.toNat) n.toNat with
  | nil => rw [hcombo] at hpos; simp at hpos
  | cons t ts =>
    simp only [buildLoop]
    rw [if_neg hop]

/-- Claim C6 witness: `create_database(1, 1, "add")` fails with the
UnsupportedOperation error. -/
theorem claim_C6_witness :
    create_database (.int 1) (.int 1) "add"
      = .error (.unsupportedOperation ("Unsupported operation: " ++ "add")) :=
  claim_C6_unsupported_operation 1 1 (by decide) (by decide) "add" (by decide)

/-- Claim C7: `create_database` fails with an InvalidArgument
`ValueError` whenever `num_inputs` or `input_bit_depth` is not a
positive integer (non-positive integers and non-integers alike). -/
theorem claim_C7_invalid_argument (a b : PyParam) (op : String)
    (h : isPosInt a = false ∨ isPosInt b = false) :
    ∃ msg, create_database a b op = .error (.invalidArgument msg) := by
  cases a with
  | nonInt => exact ⟨"num_inputs must be a positive integer.", rfl⟩
  | int n =>
    cases b with
    | nonInt =>
      by_cases hn : n ≤ 0
      · exact ⟨"num_inputs must be a positive integer.",
          by simp only [create_database]; rw [if_pos hn]⟩
      · exact ⟨"input_bit_depth must be a positive integer.",
          by simp only [create_database]; rw [if_neg hn]⟩
    | int m =>
      simp only [isPosInt, decide_eq_false_iff_not, Int.not_lt] at h
      by_cases hn : n ≤ 0
      · exact ⟨"num_inputs must be a positive integer.",
          by simp only [create_database]; rw [if_pos hn]⟩
      · have hm : m ≤ 0 := by omega
        exact ⟨"input_bit_depth must be a positive integer.",
          by simp only [create_database]; rw [if_neg hn, if_pos hm]⟩

/-- Claim C7 witness: `num_inputs = 0` fails with InvalidArgument. -/
theorem claim_C7_witness :
    ∃ msg, create_database (.int 0) (.int 1) "multiply"
      = .error (.invalidArgument msg) :=
  claim_C7_invalid_argument (.int 0) (.int 1) "multiply" (Or.inl (by decide))

/-- Claim C10: the validation order is `num_inputs` first, then
`input_bit_depth`, before the operation identifier is ever examined:
when a parameter is invalid and the operation is also unrecognized, the
failure is the InvalidArgument error for the first offending
parameter, never the UnsupportedOperation error. -/
theorem claim_C10_validation_order (a b : PyParam) (op : String)
    (_hop : op ≠ "multiply") (h : isPosInt a = false ∨ isPosInt b = false) :
    create_database a b op = .error (.invalidArgument
      (if isPosInt a = false then "num_inputs must be a positive integer."
       else "input_bit_depth must be a positive integer.")) := by
  cases a with
  | nonInt =>
    rw [if_pos (by decide : isPosInt PyParam.nonInt = false)]
    rfl
  | int n =>
    cases b with
    | nonInt =>
      by_cases hn : n ≤ 0
      · rw [if_pos (by simp [isPosInt]; omega)]
        simp only [create_database]
        rw [if_pos hn]
      · rw [if_neg (by simp [isPosInt]; omega)]
        simp only [create_database]
        rw [if_neg hn]
    | int m =>
      simp only [isPosInt, decide_eq_false_iff_not, Int.not_lt] at h
      by_cases hn : n ≤ 0
      · rw [if_pos (by simp [isPosInt]; omega)]
        simp only [create_database]
        rw [if_pos hn]
      · have hm : m ≤ 0 := by omega
        rw [if_neg (by simp [isPosInt]; omega)]
        simp only [create_database]
        rw [if_neg hn, if_pos hm]

/-- Claim C10 witness: `num_inputs = 0` with operation `"add"` fails
with the `num_inputs` InvalidArgument error, not UnsupportedOperation. -/
theorem claim_C10_witness :
    create_database (.int 0) (.int 1) "add" = .error (.invalidArgument
      (if isPosInt (.int 0) = false then "num_inputs must be a positive integer."
       else "input_bit_depth must be a positive integer.")) :=
  claim_C10_validation_order (.int 0) (.int 1) "add" (by decide) (Or.inl (by decide))

/-- Claim C4: for every text-keyed table and every tuple input,
`query_database` resolves by a two-stage lookup — the value under the
PRIMARY comma-and-space rendering when present, else the value under
the SECONDARY rendering with all spaces removed when present (so a
table keyed without spaces still succeeds), else a NotFound error
naming the queried tuple's rendering and both attempted key forms. -/
theorem claim_C4_two_stage_lookup {α : Type} (db : List (PyStr × α))
    (elems : List PyVal) :
    (∀ v, dictGet? db (pyTupleStr elems) = some v →
      query_database db (.tuple elems) = .ok v) ∧
    (dictGet? db (pyTupleStr elems) = none →
      ∀ v, dictGet? db (noSpaces (pyTupleStr elems)) = some v →
        query_database db (.tuple elems) = .ok v) ∧
    (dictGet? db (pyTupleStr elems) = none →
      dictGet? db (noSpaces (pyTupleStr elems)) = none →
      query_database db (.tuple elems) = .error (.notFound (pyTupleStr elems)
        (pyTupleStr elems) (noSpaces (pyTupleStr elems)))) := by
  refine ⟨?_, ?_, ?_⟩
  · intro v h
    simp [query_database, h]
  · intro h1 v h2
    simp [query_database, h1, h2]
  · intro h1 h2
    simp [query_database, h1, h2]

/-- Claim C4 witness: a table whose key was stored without spaces,
`"(1,1)"`, is still found for the tuple `(1, 1)` through the secondary
rendering. -/
theorem claim_C4_witness :
    query_database [((['(', '1', ',', '1', ')'] : PyStr), (7 : Nat))]
        (.tuple [.int 1, .int 1]) = .ok 7 :=
  (claim_C4_two_stage_lookup [((['(', '1', ',', '1', ')'] : PyStr), (7 : Nat))]
    [.int 1, .int 1]).2.1 (by decide) 7 (by decide)

/-- Claim C5, counterexample: the claim says `query_database` fails
with a TypeMismatch error whenever the input is not a tuple of
integers, but a tuple containing a non-integer (here the value `None`,
rendered `None`) passes the `isinstance(_, tuple)` check and proceeds
to the lookup stages, failing with NotFound instead on the empty
table. -/
theorem claim_C5_counterexample :
    query_database ([] : List (PyStr × Nat)) (.tuple [.nonInt ['N', 'o', 'n', 'e']])
        = .error (.notFound ['(', 'N', 'o', 'n', 'e', ',', ')']
            ['(', 'N', 'o', 'n', 'e', ',', ')'] ['(', 'N', 'o', 'n', 'e', ',', ')'])
      ∧ isTypeMismatchB (query_database ([] : List (PyStr × Nat))
          (.tuple [.nonInt ['N', 'o', 'n', 'e']])) = false :=
  ⟨rfl, rfl⟩

/-- Claim C5 as amended: `query_database` fails with the TypeMismatch
error exactly when its argument is not a tuple; every tuple argument —
whatever its element types — proceeds to the lookup stages and never
produces a TypeMismatch error. -/
theorem claim_C5_type_check {α : Type} (db : List (PyStr × α)) :
    query_database db .nonTuple
        = .error (.typeMismatch "input_values must be a tuple.")
      ∧ ∀ elems, isTypeMismatchB (query_database db (.tuple elems)) = false := by
  refine ⟨rfl, ?_⟩
  intro elems
  cases h1 : dictGet? db (pyTupleStr elems) with
  | some v => simp [query_database, h1, isTypeMismatchB]
  | none =>
    cases h2 : dictGet? db (noSpaces (pyTupleStr elems)) with
    | some v => simp [query_database, h1, h2, isTypeMismatchB]
    | none => simp [query_database, h1, h2, isTypeMismatchB]

/-- Claim C8: `simulate_neuron` is a direct pass-through to
`query_database` — it returns the same value whenever the query
succeeds and fails with the identical error whenever the query
fails. -/
theorem claim_C8_pass_through {α : Type} (db : List (PyStr × α)) (i : PyInput) :
    (∀ v : α, query_database db i = .ok v → simulate_neuron db i = .ok v) ∧
    (∀ e : QueryError, query_database db i = .error e →
      simulate_neuron db i = .error e) :=
  ⟨fun _ h => h, fun _ h => h⟩

/-- Claim C8 witness: on a sample table, `simulate_neuron` returns the
queried value. -/
theorem claim_C8_witness :
    simulate_neuron [((['(', '2', ',', ' ', '3', ')'] : PyStr), (6 : Nat))]
        (.tuple [.int 2, .int 3]) = .ok 6 :=
  (claim_C8_pass_through [((['(', '2', ',', ' ', '3', ')'] : PyStr), (6 : Nat))]
    (.tuple [.int 2, .int 3])).1 6 rfl

/-- Claim C9: serialization is lossless — the canonical rendering is
injective on tuples of non-negative integers, so the serialized table
produced from a built table has exactly as many entries as the
in-memory table and no two tuple keys collide. -/
theorem claim_C9_lossless_serialization :
    (∀ s t : List Nat, natTupleStr s = natTupleStr t → s = t) ∧
    (∀ n b : Int, 0 < n → 0 < b →
      ∀ db, create_database (.int n) (.int b) "multiply" = .ok db →
        (serialize db).length = db.length
          ∧ ((serialize db).map Prod.fst).Nodup) := by
  constructor
  · exact fun s t h => natTupleStr_injective h
  · intro n b hn hb db hdb
    rw [create_database_multiply n b hn hb] at hdb
    injection hdb with hdb
    subst hdb
    rw [serialize_eq _ (build_keys_nodup (2 ^ b.toNat) n.toNat)]
    refine ⟨by rw [List.length_map], ?_⟩
    rw [List.map_map]
    have he : (Prod.fst ∘ fun p : List Nat × Nat => (natTupleStr p.1, p.2))
        = fun p : List Nat × Nat => natTupleStr p.1 := rfl
    rw [he]
    exact build_keys_nodup (2 ^ b.toNat) n.toNat

/-- Claim C9 witness: rendering injectivity and the entry count of the
serialized table, at `num_inputs = 1`, `input_bit_depth = 1`. -/
theorem claim_C9_witness :
    ([2] = [2])
      ∧ ((serialize [([0], 0), ([1], 1)]).length = [([0], 0), ([1], 1)].length
        ∧ ((serialize [([0], 0), ([1], 1)]).map Prod.fst).Nodup) :=
  ⟨claim_C9_lossless_serialization.1 [2] [2] rfl,
    claim_C9_lossless_serialization.2 1 1 (by decide) (by decide)
      [([0], 0), ([1], 1)] rfl⟩

/-- Claim C1: the round-trip law — for every valid pair
`(num_inputs, input_bit_depth)` and every tuple `t` of the input
space, querying the serialized form of the built table with `t`
returns exactly the product of `t`'s elements. -/
theorem claim_C1_round_trip (n b : Nat) (hn : 1 ≤ n) (hb : 1 ≤ b)
    (t : List Nat) (hlen : t.length = n) (hbound : ∀ x ∈ t, x < 2 ^ b) :
    ∃ db, create_database (.int (Int.ofNat n)) (.int (Int.ofNat b)) "multiply"
        = .ok db ∧
      query_database (serialize db)
        (.tuple (t.map (fun x => PyVal.int (Int.ofNat x)))) = .ok t.prod := by
  have hn' : 0 < Int.ofNat n := Int.ofNat_pos.mpr hn
  have hb' : 0 < Int.ofNat b := Int.ofNat_pos.mpr hb
  have hdb := create_database_multiply (Int.ofNat n) (Int.ofNat b) hn' hb'
  have en : (Int.ofNat n).toNat = n := rfl
  have eb : (Int.ofNat b).toNat = b := rfl
  rw [en, eb] at hdb
  refine ⟨_, hdb, ?_⟩
  rw [serialize_eq _ (build_keys_nodup (2 ^ b) n)]
  have hser : ((productRepeat (2 ^ b) n).map (fun t => (t, pyProd t))).map
      (fun p => (natTupleStr p.1, p.2))
      = (productRepeat (2 ^ b) n).map (fun t => (natTupleStr t, pyProd t)) := by
    rw [List.map_map]
    rfl
  rw [hser]
  have hmem : t ∈ productRepeat (2 ^ b) n :=
    (mem_productRepeat _ _ t).mpr ⟨hlen, hbound⟩
  have hnd : ((productRepeat (2 ^ b) n).map natTupleStr).Nodup :=
    (nodup_productRepeat _ _).map natTupleStr_injective
  have hlookup := dictGet?_map natTupleStr pyProd (productRepeat (2 ^ b) n) hnd t hmem
  simp only [query_database, pyTupleStr_natCast t, hlookup]
  rw [pyProd_eq_prod]

/-- Claim C1 witness: instantiation at `num_inputs = 2`,
`input_bit_depth = 1`, tuple `(1, 1)`. -/
theorem claim_C1_witness :
    ∃ db, create_database (.int (Int.ofNat 2)) (.int (Int.ofNat 1)) "multiply"
        = .ok db ∧
      query_database (serialize db)
        (.tuple ([1, 1].map (fun x => PyVal.int (Int.ofNat x))))
        = .ok ([1, 1] : List Nat).prod :=
  claim_C1_round_trip 2 1 (by decide) (by decide) [1, 1] rfl (by decide)
